import Mathlib

/-!
Verification of the pkg-risk package analysis pipeline.

Shallow embedding of the Python sources under `src/pkgrisk/`:
  * `analyzers/scorer.py` - risk tier, CVE penalty, stale-PR penalty
  * `analyzers/supply_chain.py` - overall supply-chain risk aggregation
  * `analyzers/osv.py` - OSV severity parsing and CVE history fetching
  * `analyzers/pipeline.py` - data availability and scoring decisions
  * `analyzers/github.py` - contributor Shannon entropy
  * `analyzers/deps_dev.py` - dependency graph parsing (BFS)
  * `daemon/work_queue.py` - interleaved work queue

Python floats used for scores are modelled as rationals; datetimes are
modelled as integer day counts.  Only the fields of the pydantic models
(`models/schemas.py`) that the verified functions read are embedded.
-/


/-- Python's `str.upper()` for the ASCII severity strings handled here,
defined by structural recursion over the characters so that concrete
instances reduce. -/
def pyUpper (s : String) : String :=
  String.mk (s.data.map Char.toUpper)

/-- `models/schemas.py` `CVEDetail`.  `severity` is a plain `str` in the
schema (empty string plays the role of a falsy value in the Python code);
dates are modelled as integer day counts. -/
structure CVEDetail where
  id : String := ""
  summary : String := ""
  severity : String := "UNKNOWN"
  cvssScore : Option ℚ := none
  publishedDate : Int := 0
  fixedVersion : Option String := none
  patchReleaseDate : Option Int := none
  daysToPatch : Option Int := none
  references : List String := []
deriving Repr, DecidableEq

/-- `models/schemas.py` `CVEHistory`. -/
structure CVEHistory where
  totalCves : Nat := 0
  cves : List CVEDetail := []
  avgDaysToPatch : Option ℚ := none
  hasUnpatched : Bool := false
deriving Repr, DecidableEq

/-- `models/schemas.py` `SecurityData` (fields read by `_calculate_cve_penalty`
and `_calculate_risk_tier`). -/
structure SecurityData where
  knownCves : Nat := 0
  cveHistory : Option CVEHistory := none
deriving Repr, DecidableEq

/-- `models/schemas.py` `GitHubRepoData` (field read by `_calculate_risk_tier`). -/
structure GitHubRepoData where
  isArchived : Bool := false
deriving Repr, DecidableEq

/-- `models/schemas.py` `GitHubData` (fields read by `_calculate_risk_tier`). -/
structure GitHubData where
  repo : GitHubRepoData := {}
  security : SecurityData := {}
deriving Repr, DecidableEq

/-- `models/schemas.py` `LifecycleScriptRisk` (fields read by
`_calculate_risk_tier` and `analyze_package`). -/
structure LifecycleScriptRisk where
  installsRuntime : Bool := false
  hasCredentialAccess : Bool := false
  hasNetworkCalls : Bool := false
  riskScore : Nat := 0
deriving Repr, DecidableEq

/-- `models/schemas.py` `TarballAnalysis` (fields read by the verified code). -/
structure TarballAnalysis where
  suspiciousFiles : List String := []
  riskScore : Nat := 0
deriving Repr, DecidableEq

/-- `models/schemas.py` `VersionDiff` (field read by the verified code). -/
structure VersionDiff where
  riskScore : Nat := 0
deriving Repr, DecidableEq

/-- `models/schemas.py` `PublishingInfo` (field read by the verified code). -/
structure PublishingInfo where
  riskScore : Nat := 0
deriving Repr, DecidableEq

/-- `models/schemas.py` `SupplyChainData` (fields read by the verified code). -/
structure SupplyChainData where
  lifecycleScripts : LifecycleScriptRisk := {}
  tarball : Option TarballAnalysis := none
  versionDiff : Option VersionDiff := none
  publishing : PublishingInfo := {}
  overallRiskScore : Nat := 0
  riskLevel : String := "low"
deriving Repr, DecidableEq

/-- `models/schemas.py` `RiskTier`. -/
inductive RiskTier where
  | approved
  | conditional
  | restricted
  | prohibited
deriving Repr, DecidableEq

/-- Score-based tier phase of `Scorer._calculate_risk_tier`
(`scorer.py` lines 189-198): reached when neither the supply-chain block
nor the GitHub block returned early. -/
def calcRiskTierScore (overall securityScore : ℚ)
    (supplyChain : Option SupplyChainData) : RiskTier :=
  if 80 ≤ overall ∧ 70 ≤ securityScore then
    if (match supplyChain with
        | some sc => sc.riskLevel == "medium" || sc.riskLevel == "high" ||
            sc.riskLevel == "critical"
        | none => false) then
      RiskTier.conditional
    else
      RiskTier.approved
  else if 60 ≤ overall then
    RiskTier.conditional
  else
    RiskTier.restricted

/-- GitHub phase of `Scorer._calculate_risk_tier` (`scorer.py` lines 172-187):
the `if github_data:` block, falling through to the score-based tiers. -/
def calcRiskTierGithub (overall securityScore : ℚ)
    (githubData : Option GitHubData) (supplyChain : Option SupplyChainData) :
    RiskTier :=
  match githubData with
  | some g =>
    if g.repo.isArchived then RiskTier.prohibited
    else if (match g.security.cveHistory with
             | some h => h.hasUnpatched && h.cves.any (fun cve =>
                 !(cve.severity == "") && pyUpper cve.severity == "CRITICAL" &&
                   cve.fixedVersion.isNone)
             | none => false) then
      RiskTier.prohibited
    else if securityScore < 40 then RiskTier.restricted
    else calcRiskTierScore overall securityScore supplyChain
  | none => calcRiskTierScore overall securityScore supplyChain

/-- `Scorer._calculate_risk_tier` (`scorer.py` lines 140-198). -/
def calcRiskTier (overall securityScore : ℚ)
    (githubData : Option GitHubData) (supplyChain : Option SupplyChainData) :
    RiskTier :=
  match supplyChain with
  | some sc =>
    if sc.riskLevel == "critical" then RiskTier.prohibited
    else if sc.lifecycleScripts.installsRuntime then RiskTier.prohibited
    else if sc.lifecycleScripts.hasCredentialAccess &&
        sc.lifecycleScripts.hasNetworkCalls then RiskTier.prohibited
    else if (match sc.tarball with
             | some t => !t.suspiciousFiles.isEmpty
             | none => false) then RiskTier.prohibited
    else if sc.riskLevel == "high" then RiskTier.restricted
    else calcRiskTierGithub overall securityScore githubData supplyChain
  | none => calcRiskTierGithub overall securityScore githubData supplyChain

/-- `Scorer.CVE_SEVERITY_PENALTIES.get(severity, -10)` applied to
`cve.severity.upper() if cve.severity else "UNKNOWN"`
(`scorer.py` lines 56-63 and 427-429). -/
def severityPenalty (severity : String) : ℤ :=
  let sev := if severity == "" then "UNKNOWN" else pyUpper severity
  if sev == "CRITICAL" then -20
  else if sev == "HIGH" then -15
  else if sev == "MEDIUM" then -8
  else if sev == "LOW" then -3
  else if sev == "UNKNOWN" then -10
  else -10

/-- `Scorer._calculate_cve_penalty` (`scorer.py` lines 414-432).
`CVE_MAX_PENALTY = -60`. -/
def calcCvePenalty (security : SecurityData) : ℤ :=
  match security.cveHistory with
  | none =>
    if 0 < security.knownCves then
      max (-60) (-(10 * (security.knownCves : ℤ)))
    else 0
  | some h =>
    if h.cves.isEmpty then
      if 0 < security.knownCves then
        max (-60) (-(10 * (security.knownCves : ℤ)))
      else 0
    else
      max (-60) ((h.cves.map (fun cve => severityPenalty cve.severity)).sum)

/-- Stale-PR penalty term of `Scorer._calculate_maintenance_score`
(`scorer.py` lines 649-651): `if prs.stale_prs > 5: score -= min(15,
prs.stale_prs * 2)`.  Returns the (non-positive) adjustment applied to the
score. -/
def stalePrsPenalty (stalePrs : Nat) : ℤ :=
  if 5 < stalePrs then -(min 15 (stalePrs * 2) : ℤ) else 0

/-- Overall supply-chain risk aggregation of
`SupplyChainAnalyzer.analyze_package` (`supply_chain.py` lines 830-857).
Takes the component risk scores (`tarball`/`version_diff` only when those
analyses ran) and returns `(overall_risk_score, risk_level)`. -/
def overallSupplyChainRisk (lifecycleScore : Nat)
    (tarballScore versionDiffScore : Option Nat) (publishingScore : Nat) :
    Nat × String :=
  let scores := [lifecycleScore] ++ tarballScore.toList ++
    versionDiffScore.toList ++ [publishingScore]
  -- `max(scores) if scores else 0`; fold with 0 agrees on the non-negative ints
  let overall := scores.foldl (fun a b => max a b) 0
  -- `sum(1 for s in scores if s >= 50)`
  let highScores := (scores.filter (fun s => 50 ≤ s)).length
  let overall' := if 2 ≤ highScores then min 100 (overall + 20) else overall
  let level :=
    if 75 ≤ overall' then "critical"
    else if 50 ≤ overall' then "high"
    else if 25 ≤ overall' then "medium"
    else "low"
  (overall', level)

/-- Supply-chain prohibition conditions named by the spec for the risk tier:
critical risk level, runtime install, credential access together with network
calls, or suspicious tarball files. -/
def scProhibits : Option SupplyChainData → Bool
  | none => false
  | some sc =>
    sc.riskLevel == "critical" || sc.lifecycleScripts.installsRuntime ||
      (sc.lifecycleScripts.hasCredentialAccess &&
        sc.lifecycleScripts.hasNetworkCalls) ||
      (match sc.tarball with
       | some t => !t.suspiciousFiles.isEmpty
       | none => false)

/-- The supply-chain risk level is `high`. -/
def scRiskHigh : Option SupplyChainData → Bool
  | none => false
  | some sc => sc.riskLevel == "high"

/-- GitHub prohibition conditions named by the spec for the risk tier: the
repository is archived, or the CVE history is flagged unpatched and contains a
CRITICAL CVE without a fixed version. -/
def ghProhibits : Option GitHubData → Bool
  | none => false
  | some g =>
    g.repo.isArchived ||
      (match g.security.cveHistory with
       | some h => h.hasUnpatched && h.cves.any (fun cve =>
           !(cve.severity == "") && pyUpper cve.severity == "CRITICAL" &&
             cve.fixedVersion.isNone)
       | none => false)

/-- The supply-chain risk level is medium, high or critical (the approved-tier
downgrade condition). -/
def scMediumPlus : Option SupplyChainData → Bool
  | none => false
  | some sc =>
    sc.riskLevel == "medium" || sc.riskLevel == "high" ||
      sc.riskLevel == "critical"

/-- Risk tier as described by the (amended) specification: a flat cascade in
which the high supply-chain-risk restriction is tested after the four
supply-chain prohibitions but before the archived / unpatched-critical-CVE
prohibitions. -/
def riskTierSpec (overall securityScore : ℚ)
    (githubData : Option GitHubData) (supplyChain : Option SupplyChainData) :
    RiskTier :=
  if scProhibits supplyChain then RiskTier.prohibited
  else if scRiskHigh supplyChain then RiskTier.restricted
  else if ghProhibits githubData then RiskTier.prohibited
  else if securityScore < 40 then RiskTier.restricted
  else if 80 ≤ overall ∧ 70 ≤ securityScore then
    if scMediumPlus supplyChain then RiskTier.conditional else RiskTier.approved
  else if 60 ≤ overall then RiskTier.conditional
  else RiskTier.restricted

/-- `models/schemas.py` `Platform`. -/
inductive Platform where
  | github
  | gitlab
  | bitbucket
  | other
deriving Repr, DecidableEq

/-- `models/schemas.py` `RepoRef` (fields read by the pipeline). -/
structure RepoRef where
  platform : Platform
  owner : String := ""
  repo : String := ""
deriving Repr, DecidableEq

/-- `models/schemas.py` `DataAvailability`. -/
inductive DataAvailability where
  | Available
  | NoRepo
  | RepoNotFound
  | PrivateRepo
  | NotGithub
  | PartialForge
deriving Repr, DecidableEq

/-- `models/schemas.py` `AggregatorData` (field read by the pipeline). -/
structure AggregatorData where
  hasProjectData : Bool := false
deriving Repr, DecidableEq

/-- Stage 2 of `AnalysisPipeline.analyze_package` (`pipeline.py` lines
117-147): determine availability and the fetched GitHub data.  `fetched`
models the result of `github.fetch_repo_data`, which is consulted only when
the repository reference is on GitHub (`None` means the fetch failed). -/
def initialAvailability (repoRef : Option RepoRef)
    (fetched : Option GitHubData) : DataAvailability × Option GitHubData :=
  match repoRef with
  | none => (DataAvailability.NoRepo, none)
  | some r =>
    if r.platform ≠ Platform.github then (DataAvailability.NotGithub, none)
    else
      match fetched with
      | none => (DataAvailability.RepoNotFound, none)
      | some g => (DataAvailability.Available, some g)

/-- Stage 2.7 upgrade of `AnalysisPipeline.analyze_package` (`pipeline.py`
lines 209-220): a `NOT_GITHUB` package is promoted to `PARTIAL_FORGE` when the
deps.dev aggregator returned project-level data.  `aggregator = none` models a
failed or skipped deps.dev fetch. -/
def promoteAvailability (avail : DataAvailability)
    (aggregator : Option AggregatorData) : DataAvailability :=
  if avail == DataAvailability.NotGithub &&
      (match aggregator with
       | some a => a.hasProjectData
       | none => false) then
    DataAvailability.PartialForge
  else avail

/-- `can_score` of `AnalysisPipeline.analyze_package` (`pipeline.py` lines
250-253). -/
def canScore (avail : DataAvailability) (githubData : Option GitHubData)
    (aggregator : Option AggregatorData) : Bool :=
  (avail == DataAvailability.Available && githubData.isSome) ||
    (avail == DataAvailability.PartialForge && aggregator.isSome)

/-- Stages 2-4 of `AnalysisPipeline.analyze_package` combined: the final
`data_availability` of the persisted record and whether its `scores` field is
populated (`scores = None` exactly when `can_score` is false, `pipeline.py`
lines 244-274). -/
def pipelineOutcome (repoRef : Option RepoRef) (fetched : Option GitHubData)
    (aggregator : Option AggregatorData) : DataAvailability × Bool :=
  let init := initialAvailability repoRef fetched
  let avail := promoteAvailability init.1 aggregator
  (avail, canScore avail init.2 aggregator)

/-- One entry of an OSV record's `severity` array (`osv.py` lines 130-140).
`numScore` is the `score` field when it is numeric; string scores (CVSS
vectors) and missing scores are ignored by the code, so both are `none`. -/
structure SeverityEntry where
  type : String := ""
  numScore : Option ℚ := none
deriving Repr, DecidableEq

/-- The `cvss` value inside `database_specific` (`osv.py` lines 143-149):
a dict (whose `score` entry may be absent), a bare number, or anything else
(ignored). -/
inductive CvssSpec where
  | dict (score : Option ℚ)
  | num (q : ℚ)
  | other
deriving Repr, DecidableEq

/-- `database_specific` of an OSV record (fields read by `_parse_severity`). -/
structure DbSpecific where
  cvss : Option CvssSpec := none
  severity : Option String := none
deriving Repr, DecidableEq

/-- One `ranges` entry of an `affected` entry.  Each event is modelled by its
`fixed` field (`none` for events without a `fixed` key). -/
structure AffectedRange where
  events : List (Option String) := []
deriving Repr, DecidableEq

/-- One `affected` entry of an OSV record: the `ecosystem_specific.severity`
value when present, and the version ranges. -/
structure Affected where
  ecosystemSeverity : Option String := none
  ranges : List AffectedRange := []
deriving Repr, DecidableEq

/-- An OSV vulnerability record (the fields read by `fetch_cve_history`).
`published` is `some (some t)` for a parseable ISO timestamp `t`,
`some none` for an unparseable one (the code falls back to `now`), and
`none` when the field is missing (same fallback).  `references` holds each
reference's `url` field. -/
structure OSVVuln where
  id : String := "UNKNOWN"
  summary : String := ""
  details : String := ""
  severity : List SeverityEntry := []
  dbSpecific : DbSpecific := {}
  affected : List Affected := []
  published : Option (Option Int) := none
  references : List (Option String) := []
deriving Repr, DecidableEq

/-- CVSS v3 band used when no explicit severity is set
(`osv.py` lines 156-164). -/
def cvssBand (score : ℚ) : String :=
  if 9 ≤ score then "CRITICAL"
  else if 7 ≤ score then "HIGH"
  else if 4 ≤ score then "MEDIUM"
  else "LOW"

/-- CVSS score resolution of `OSVFetcher._parse_severity` (`osv.py` lines
129-149): the last numeric CVSS_V3 entry of the severity array, overridden by
`database_specific.cvss` (a dict overrides even with a missing `score`). -/
def parseCvss (v : OSVVuln) : Option ℚ :=
  let cvss0 : Option ℚ := v.severity.foldl
    (fun acc e =>
      if e.type == "CVSS_V3" then
        match e.numScore with
        | some q => some q
        | none => acc
      else acc)
    none
  match v.dbSpecific.cvss with
  | some (CvssSpec.dict s) => s
  | some (CvssSpec.num q) => some q
  | some CvssSpec.other => cvss0
  | none => cvss0

/-- `OSVFetcher._parse_severity` (`osv.py` lines 117-173): returns
`(severity, cvss_score)`. -/
def parseSeverity (v : OSVVuln) : String × Option ℚ :=
  let cvss1 : Option ℚ := parseCvss v
  -- explicit severity from database_specific
  let sev0 : String :=
    match v.dbSpecific.severity with
    | some s => pyUpper s
    | none => "UNKNOWN"
  -- derive from CVSS when still UNKNOWN
  let sev1 : String :=
    if sev0 == "UNKNOWN" then
      match cvss1 with
      | some q => cvssBand q
      | none => sev0
    else sev0
  -- ecosystem_specific severity from the first affected entry carrying one
  let sev2 : String :=
    match v.affected.findSome? (fun a => a.ecosystemSeverity) with
    | some s => pyUpper s
    | none => sev1
  (sev2, cvss1)

/-- Severity as described by the (amended) specification: the
ecosystem-specific severity of the first `affected` entry carrying one takes
the highest precedence; otherwise the explicit `database_specific` severity
(unless it uppercases to UNKNOWN); otherwise the CVSS v3 band; otherwise
UNKNOWN. -/
def severityPrecedenceSpec (v : OSVVuln) : String :=
  match v.affected.findSome? (fun a => a.ecosystemSeverity) with
  | some s => pyUpper s
  | none =>
    match v.dbSpecific.severity with
    | some t =>
      if pyUpper t == "UNKNOWN" then
        match parseCvss v with
        | some q => cvssBand q
        | none => "UNKNOWN"
      else pyUpper t
    | none =>
      match parseCvss v with
      | some q => cvssBand q
      | none => "UNKNOWN"

/-- `OSVFetcher._parse_fixed_version` (`osv.py` lines 175-189): first `fixed`
event across all ranges of all affected entries. -/
def parseFixedVersion (v : OSVVuln) : Option String :=
  v.affected.findSome? (fun a =>
    a.ranges.findSome? (fun r => r.events.findSome? id))

/-- `OSVFetcher._parse_references` (`osv.py` lines 191-205): non-empty `url`
fields, limited to 5. -/
def parseReferences (v : OSVVuln) : List String :=
  ((v.references.filterMap id).filter (fun u => !(u == ""))).take 5

/-- `OSVFetcher._find_release_date` (`osv.py` lines 207-235), over release
dates modelled as an association list from version string to day count. -/
def findReleaseDate (version : String)
    (releaseDates : List (String × Int)) : Option Int :=
  match releaseDates.lookup version with
  | some d => some d
  | none =>
    match releaseDates.lookup ("v" ++ version) with
    | some d => some d
    | none =>
      if version.startsWith "v" then releaseDates.lookup (version.drop 1)
      else none

/-- Outcome of `OSVFetcher._query`'s HTTP POST (`osv.py` lines 43-64):
either a JSON body with a `vulns` list, or an HTTP error status (for which
`raise_for_status` raises `httpx.HTTPStatusError`). -/
inductive QueryOutcome where
  | ok (vulns : List OSVVuln)
  | httpError
deriving Repr, DecidableEq

/-- `OSVFetcher._query` (`osv.py` lines 43-64): the `except
httpx.HTTPStatusError` handler returns an empty list. -/
def queryVulns : QueryOutcome → List OSVVuln
  | QueryOutcome.ok vulns => vulns
  | QueryOutcome.httpError => []

/-- Per-vulnerability processing of the `for vuln in vulns` loop of
`OSVFetcher.fetch_cve_history` (`osv.py` lines 273-334). -/
def processVuln (now : Int) (releaseDates : List (String × Int))
    (v : OSVVuln) : CVEDetail :=
  -- summary: `vuln.get("summary","") or vuln.get("details","")[:200]`
  let summary0 := if !(v.summary == "") then v.summary else v.details.take 200
  let parsed := parseSeverity v
  -- published date: unparseable or missing dates fall back to `now`
  let published : Int :=
    match v.published with
    | some (some t) => t
    | some none => now
    | none => now
  let fixedVersion := parseFixedVersion v
  -- patch timing, only with a truthy fixed version and release-date data
  let patchInfo : Option (Int × Int) :=
    match fixedVersion with
    | some fv =>
      if fv == "" || releaseDates.isEmpty then none
      else
        match findReleaseDate fv releaseDates with
        | some prd => some (prd, max 0 (prd - published))
        | none => none
    | none => none
  { id := v.id
    summary := summary0.take 500
    severity := parsed.1
    cvssScore := parsed.2
    publishedDate := published
    fixedVersion := fixedVersion
    patchReleaseDate := patchInfo.map (fun p => p.1)
    daysToPatch := patchInfo.map (fun p => p.2)
    references := parseReferences v }

/-- `severity_order.get(c.severity, 4)` (`osv.py` line 337). -/
def severityOrder (s : String) : Nat :=
  if s == "CRITICAL" then 0
  else if s == "HIGH" then 1
  else if s == "MEDIUM" then 2
  else if s == "LOW" then 3
  else 4

/-- Sort key comparison of `cve_details.sort` (`osv.py` lines 336-340):
severity rank ascending, then newest first.  Python's sort is stable, as is
`List.mergeSort`. -/
def cveSortLE (a b : CVEDetail) : Bool :=
  severityOrder a.severity < severityOrder b.severity ||
    (severityOrder a.severity == severityOrder b.severity &&
      b.publishedDate ≤ a.publishedDate)

/-- `OSVFetcher.fetch_cve_history` (`osv.py` lines 237-352) as a function of
the query outcome. -/
def fetchCveHistory (outcome : QueryOutcome) (now : Int)
    (releaseDates : List (String × Int)) : CVEHistory :=
  let vulns := queryVulns outcome
  if vulns.isEmpty then
    { totalCves := 0, cves := [], avgDaysToPatch := none, hasUnpatched := false }
  else
    let details := vulns.map (processVuln now releaseDates)
    let sorted := details.mergeSort cveSortLE
    let patchDays := details.filterMap (fun c => c.daysToPatch)
    let avg : Option ℚ :=
      if patchDays.length ≠ 0 then
        some ((patchDays.sum : ℚ) / (patchDays.length : ℚ))
      else none
    { totalCves := sorted.length
      cves := sorted
      avgDaysToPatch := avg
      hasUnpatched := vulns.any (fun v =>
        match parseFixedVersion v with
        | none => true
        | some fv => fv == "") }

/-- `daemon/work_queue.py` `PackageSource`. -/
inductive PackageSource where
  | New
  | Stale
deriving Repr, DecidableEq

/-- `daemon/work_queue.py` `QueuedPackage` (ecosystem collapsed to its
string value; `last_analyzed` is not read by `get_next_package`). -/
structure QueuedPackage where
  ecosystem : String := ""
  name : String := ""
  source : PackageSource := PackageSource.New
deriving Repr, DecidableEq

/-- The mutable state of `daemon/work_queue.py` `WorkQueue` read and written
by `get_next_package`.  `newQuota`/`staleQuota` are the source's
`new_ratio`/`stale_ratio` (the `interleave_ratio` pair, default `(3, 1)`). -/
structure WorkQueue where
  newQuota : Nat := 3
  staleQuota : Nat := 1
  newQueue : List QueuedPackage := []
  staleQueue : List QueuedPackage := []
  cyclePos : Nat := 0
deriving Repr, DecidableEq

/-- `WorkQueue.get_next_package` (`work_queue.py` lines 202-233): returns the
served package (if any) and the updated queue state. -/
def getNextPackage (q : WorkQueue) : Option QueuedPackage × WorkQueue :=
  match q.newQueue, q.staleQueue with
  | [], [] => (none, q)
  | p :: rest, [] => (some p, { q with newQueue := rest })
  | [], p :: rest => (some p, { q with staleQueue := rest })
  | np :: nrest, sp :: srest =>
    let cycleLength := q.newQuota + q.staleQuota
    if q.cyclePos < q.newQuota then
      (some np, { q with newQueue := nrest, cyclePos := q.cyclePos + 1 })
    else
      let pos' := q.cyclePos + 1
      let pos'' := if cycleLength ≤ pos' then 0 else pos'
      (some sp, { q with staleQueue := srest, cyclePos := pos'' })

/-- Repeated calls to `get_next_package`: the list of served packages and the
final state. -/
def runQueue : Nat → WorkQueue → List QueuedPackage × WorkQueue
  | 0, q => ([], q)
  | k + 1, q =>
    let step := getNextPackage q
    let rest := runQueue k step.2
    (step.1.toList ++ rest.1, rest.2)

/-- A node of the deps.dev dependency graph (the field read by
`parse_dependency_graph`). -/
structure DepsNode where
  advisoryKeys : List String := []
deriving Repr, DecidableEq

/-- An edge of the deps.dev dependency graph (`fromNode`/`toNode` default to
0 as in `edge.get("fromNode", 0)`). -/
structure DepsEdge where
  fromNode : Nat := 0
  toNode : Nat := 0
deriving Repr, DecidableEq

/-- The `children` adjacency built in `parse_dependency_graph`
(`deps_dev.py` lines 346-353): children of `n` in edge order. -/
def childrenOf (edges : List DepsEdge) (n : Nat) : List Nat :=
  (edges.filter (fun e => e.fromNode == n)).map (fun e => e.toNode)

/-- One BFS visit (`deps_dev.py` lines 360-365): process the children of the
current node, extending the depth map, the list of newly enqueued nodes and
the running maximum depth. -/
def bfsVisit (children : List Nat) (currentDepth : Nat)
    (st : List (Nat × Nat) × List Nat × Nat) :
    List (Nat × Nat) × List Nat × Nat :=
  children.foldl
    (fun st child =>
      if (st.1.lookup child).isSome then st
      else (st.1 ++ [(child, currentDepth + 1)], st.2.1 ++ [child],
        max st.2.2 (currentDepth + 1)))
    st

/-- The BFS `while queue` loop of `parse_dependency_graph` (`deps_dev.py`
lines 355-365).  The loop always terminates because queue pushes are bounded
by one per edge; the fuel `edges.length + 1` passed below is therefore never
exhausted. -/
def bfsLoop (children : Nat → List Nat) :
    Nat → List (Nat × Nat) → List Nat → Nat → List (Nat × Nat) × Nat
  | 0, depths, _, maxDepth => (depths, maxDepth)
  | _ + 1, depths, [], maxDepth => (depths, maxDepth)
  | fuel + 1, depths, current :: rest, maxDepth =>
    let currentDepth := (depths.lookup current).getD 0
    let st := bfsVisit (children current) currentDepth (depths, [], maxDepth)
    bfsLoop children fuel st.1 (rest ++ st.2.1) st.2.2

/-- `models/schemas.py` `DependencyGraphSummary`. -/
structure DependencyGraphSummary where
  directCount : Nat := 0
  transitiveCount : Nat := 0
  vulnerableDirect : Nat := 0
  vulnerableTransitive : Nat := 0
  maxDepth : Nat := 0
deriving Repr, DecidableEq

/-- The `for i, node in enumerate(nodes)` counting loop of
`parse_dependency_graph` (`deps_dev.py` lines 368-382), with `i` the index of
the first node of the list:
`(direct_count, transitive_count, vulnerable_direct, vulnerable_transitive)`.
The Python loop accumulates left-to-right; the counts are sums, so this
right fold yields the same totals. -/
def countDeps (depthOf : Nat → Nat) : Nat → List DepsNode →
    Nat × Nat × Nat × Nat
  | _, [] => (0, 0, 0, 0)
  | i, node :: rest =>
    let acc := countDeps depthOf (i + 1) rest
    if i == 0 then acc
    else
      let hasAdvisory : Nat := if node.advisoryKeys.isEmpty then 0 else 1
      if depthOf i == 1 then
        (acc.1 + 1, acc.2.1, acc.2.2.1 + hasAdvisory, acc.2.2.2)
      else
        (acc.1, acc.2.1 + 1, acc.2.2.1, acc.2.2.2 + hasAdvisory)

/-- `DepsDevFetcher.parse_dependency_graph` (`deps_dev.py` lines 321-390). -/
def parseDependencyGraph (nodes : List DepsNode) (edges : List DepsEdge) :
    Option DependencyGraphSummary :=
  if nodes.isEmpty then none
  else
    let bfs := bfsLoop (childrenOf edges) (edges.length + 1) [(0, 0)] [0] 0
    let depthOf : Nat → Nat := fun i => (bfs.1.lookup i).getD 0
    let counts := countDeps depthOf 0 nodes
    some
      { directCount := counts.1
        transitiveCount := counts.2.1
        vulnerableDirect := counts.2.2.1
        vulnerableTransitive := counts.2.2.2
        maxDepth := bfs.2 }

/-- `GitHubFetcher._calculate_contributor_entropy` (`github.py` lines
358-394), over the contributors' contribution counts; the surrounding code
(`github.py` line 280) passes `total_contributions` as their sum.  The
`round(entropy, 2)` display rounding of the final float is not modelled; the
value returned here is the Shannon entropy sum itself. -/
noncomputable def contributorEntropy (contributors : List ℕ)
    (totalContributions : ℕ) : Option ℝ :=
  if contributors.isEmpty || totalContributions == 0 then none
  else
    let percentages := (contributors.filter (fun c => 0 < c)).map
      (fun (c : ℕ) => (c : ℝ) / (totalContributions : ℝ))
    if percentages.isEmpty then none
    else
      some (percentages.foldl
        (fun acc p => if 0 < p then acc - p * Real.logb 2 p else acc) 0)

/-- Contributor entropy as invoked by `_fetch_contributors`
(`github.py` lines 280 and 295): `total_contributions` is the sum of all
contribution counts. -/
noncomputable def contributorEntropyOfRepo (contributors : List ℕ) :
    Option ℝ :=
  contributorEntropy contributors contributors.sum

/-- A concrete work queue used to instantiate the interleaving theorem: four
new and four stale packages at the default 3:1 interleave, at cycle start. -/
def sampleQueue : WorkQueue :=
  { newQuota := 3
    staleQuota := 1
    newQueue := List.replicate 4 { source := PackageSource.New }
    staleQueue := List.replicate 4 { source := PackageSource.Stale }
    cyclePos := 0 }

/-- C10: whenever the OSV query endpoint responds with an HTTP error status,
`fetch_cve_history` returns `CVEHistory(total_cves=0, cves=[],
has_unpatched=False)` - the same value as for a package with no known
vulnerabilities - instead of raising or marking the CVE data absent. -/
theorem claim_C10 (now : Int) (releaseDates : List (String × Int)) :
    fetchCveHistory QueryOutcome.httpError now releaseDates =
      { totalCves := 0, cves := [], avgDaysToPatch := none,
        hasUnpatched := false } ∧
    fetchCveHistory QueryOutcome.httpError now releaseDates =
      fetchCveHistory (QueryOutcome.ok []) now releaseDates := by
  exact ⟨rfl, rfl⟩

/-- C6 counterexample: with 3 stale pull requests the code applies no penalty
at all (the guard is `stale_prs > 5`), while the claim demands a penalty of
-2 per stale PR, i.e. -6. -/
theorem claim_C6_counterexample :
    stalePrsPenalty 3 = 0 ∧ (0 : ℤ) ≠ -(2 * 3) := by
  exact ⟨rfl, by decide⟩

/-- C6 (amended): the stale-PR penalty applies only when the stale-PR count
exceeds 5; it then subtracts 2 points per stale PR, capped at -15 in total.
Counts of at most 5 incur no penalty. -/
theorem claim_C6_amended :
    (∀ n : ℕ, 6 ≤ n → stalePrsPenalty n = max (-15) (-(2 * (n : ℤ))))
    ∧ (∀ n : ℕ, n ≤ 5 → stalePrsPenalty n = 0) := by
  constructor
  · intro n hn
    unfold stalePrsPenalty
    rw [if_pos (by omega)]
    omega
  · intro n hn
    unfold stalePrsPenalty
    rw [if_neg (by omega)]

/-- C6 witness: at 10 stale PRs the amended penalty is `max (-15) (-20) = -15`;
at 3 stale PRs it is 0. -/
theorem claim_C6_witness :
    (6 ≤ 10 ∧ stalePrsPenalty 10 = max (-15) (-(2 * (10 : ℤ))))
    ∧ (3 ≤ 5 ∧ stalePrsPenalty 3 = 0) := by
  exact ⟨⟨by decide, claim_C6_amended.1 10 (by decide)⟩,
    ⟨by decide, claim_C6_amended.2 3 (by decide)⟩⟩

/-- C3: with detailed CVE data the penalty is the sum of the per-severity
penalties (CRITICAL -20, HIGH -15, MEDIUM -8, LOW -3, UNKNOWN -10) clamped at
-60; with only a total count it is -10 per CVE with the same cap; in
particular 10 CRITICAL CVEs yield exactly -60. -/
theorem claim_C3 :
    (severityPenalty "CRITICAL" = -20 ∧ severityPenalty "HIGH" = -15 ∧
      severityPenalty "MEDIUM" = -8 ∧ severityPenalty "LOW" = -3 ∧
      severityPenalty "UNKNOWN" = -10)
    ∧ (∀ (security : SecurityData) (h : CVEHistory),
        security.cveHistory = some h → h.cves ≠ [] →
        calcCvePenalty security =
          max (-60)
            ((h.cves.map (fun cve => severityPenalty cve.severity)).sum))
    ∧ (∀ security : SecurityData,
        (∀ h, security.cveHistory = some h → h.cves = []) →
        0 < security.knownCves →
        calcCvePenalty security =
          max (-60) (-(10 * (security.knownCves : ℤ))))
    ∧ calcCvePenalty
        { knownCves := 10,
          cveHistory := some
            { totalCves := 10,
              cves := List.replicate 10 { severity := "CRITICAL" } } } = -60 := by
  refine ⟨by decide, ?_, ?_, by decide⟩
  · intro security h hsome hne
    obtain ⟨kc, ch⟩ := security
    simp only at hsome
    subst hsome
    simp [calcCvePenalty, List.isEmpty_iff, hne]
  · intro security hempty hpos
    obtain ⟨kc, ch⟩ := security
    rcases ch with _ | h
    · simp [calcCvePenalty, hpos]
    · have hc : h.cves = [] := hempty h rfl
      simp [calcCvePenalty, hc, hpos]

/-- C3 witness: a CVE history with one HIGH and one LOW CVE gets penalty
`max (-60) (-18) = -18`; a bare count of 3 CVEs gets `max (-60) (-30)`. -/
theorem claim_C3_witness :
    calcCvePenalty
      { knownCves := 2,
        cveHistory := some
          { totalCves := 2,
            cves := [{ severity := "HIGH" }, { severity := "LOW" }] } } =
      max (-60) (severityPenalty "HIGH" + (severityPenalty "LOW" + 0)) ∧
    calcCvePenalty { knownCves := 3, cveHistory := none } =
      max (-60) (-(10 * ((3 : ℕ) : ℤ))) := by
  constructor
  · exact claim_C3.2.1
      { knownCves := 2,
        cveHistory := some
          { totalCves := 2,
            cves := [{ severity := "HIGH" }, { severity := "LOW" }] } }
      { totalCves := 2,
        cves := [{ severity := "HIGH" }, { severity := "LOW" }] }
      rfl (by decide)
  · exact claim_C3.2.2.1 { knownCves := 3, cveHistory := none }
      (fun h hh => by exact Option.noConfusion hh) (by decide)

set_option maxHeartbeats 1600000 in
/-- C2: the overall supply-chain risk score is the maximum of the component
risk scores, plus 20 when at least two components score at least 50, capped
at 100; the risk level is critical exactly on `[75, 100]`, high on `[50,75)`,
medium on `[25,50)` and low below 25. -/
theorem claim_C2 (lifecycleScore publishingScore : ℕ)
    (tarballScore versionDiffScore : Option ℕ) :
    (overallSupplyChainRisk lifecycleScore tarballScore versionDiffScore
        publishingScore).1 =
      (if 2 ≤ ((if 50 ≤ lifecycleScore then 1 else 0) +
            (if 50 ≤ tarballScore.getD 0 then 1 else 0) +
            (if 50 ≤ versionDiffScore.getD 0 then 1 else 0) +
            (if 50 ≤ publishingScore then 1 else 0) : ℕ) then
        min 100
          (max (max lifecycleScore (tarballScore.getD 0))
            (max (versionDiffScore.getD 0) publishingScore) + 20)
      else
        max (max lifecycleScore (tarballScore.getD 0))
          (max (versionDiffScore.getD 0) publishingScore))
    ∧ ((overallSupplyChainRisk lifecycleScore tarballScore versionDiffScore
          publishingScore).2 = "critical" ↔
        75 ≤ (overallSupplyChainRisk lifecycleScore tarballScore
          versionDiffScore publishingScore).1)
    ∧ ((overallSupplyChainRisk lifecycleScore tarballScore versionDiffScore
          publishingScore).2 = "high" ↔
        50 ≤ (overallSupplyChainRisk lifecycleScore tarballScore
            versionDiffScore publishingScore).1 ∧
          (overallSupplyChainRisk lifecycleScore tarballScore versionDiffScore
            publishingScore).1 < 75)
    ∧ ((overallSupplyChainRisk lifecycleScore tarballScore versionDiffScore
          publishingScore).2 = "medium" ↔
        25 ≤ (overallSupplyChainRisk lifecycleScore tarballScore
            versionDiffScore publishingScore).1 ∧
          (overallSupplyChainRisk lifecycleScore tarballScore versionDiffScore
            publishingScore).1 < 50)
    ∧ ((overallSupplyChainRisk lifecycleScore tarballScore versionDiffScore
          publishingScore).2 = "low" ↔
        (overallSupplyChainRisk lifecycleScore tarballScore versionDiffScore
          publishingScore).1 < 25) := by
  have hlevel :
      (overallSupplyChainRisk lifecycleScore tarballScore versionDiffScore
        publishingScore).2 =
      (if 75 ≤ (overallSupplyChainRisk lifecycleScore tarballScore
          versionDiffScore publishingScore).1 then "critical"
       else if 50 ≤ (overallSupplyChainRisk lifecycleScore tarballScore
          versionDiffScore publishingScore).1 then "high"
       else if 25 ≤ (overallSupplyChainRisk lifecycleScore tarballScore
          versionDiffScore publishingScore).1 then "medium"
       else "low") := rfl
  refine ⟨?_, ?_, ?_, ?_, ?_⟩
  · rcases tarballScore with _ | t <;> rcases versionDiffScore with _ | v <;>
      simp only [overallSupplyChainRisk, Option.toList, Option.getD,
        List.nil_append, List.cons_append, List.append_nil,
        List.singleton_append, List.filter_cons, List.filter_nil,
        decide_eq_true_eq, List.foldl_cons, List.foldl_nil] <;>
      split_ifs <;>
      (try simp only [List.length_cons, List.length_nil] at *) <;>
      omega
  · rw [hlevel]; split_ifs <;> simp_all <;> omega
  · rw [hlevel]; split_ifs <;> simp_all <;> omega
  · rw [hlevel]; split_ifs <;> simp_all <;> omega
  · rw [hlevel]; split_ifs <;> simp_all <;> omega

/-- C5: the persisted record carries scores exactly when its availability is
`available` or `partial_forge`; every other availability yields a null
`scores` field; and a `not_github` package is promoted to `partial_forge`
(and scored) exactly when the deps.dev aggregator returned project-level
data. -/
theorem claim_C5 (repoRef : Option RepoRef) (fetched : Option GitHubData)
    (aggregator : Option AggregatorData) :
    ((pipelineOutcome repoRef fetched aggregator).2 = true ↔
      (pipelineOutcome repoRef fetched aggregator).1 =
          DataAvailability.Available ∨
        (pipelineOutcome repoRef fetched aggregator).1 =
          DataAvailability.PartialForge)
    ∧ (∀ r : RepoRef, repoRef = some r → r.platform ≠ Platform.github →
        ((pipelineOutcome repoRef fetched aggregator).1 =
            DataAvailability.PartialForge ∧
          (pipelineOutcome repoRef fetched aggregator).2 = true ↔
          ∃ a, aggregator = some a ∧ a.hasProjectData = true)) := by
  rcases repoRef with _ | r
  · rcases aggregator with _ | a <;>
      simp [pipelineOutcome, initialAvailability, promoteAvailability,
        canScore]
  · rcases hp : r.platform <;>
      rcases fetched with _ | g <;>
      rcases aggregator with _ | a <;>
      simp_all [pipelineOutcome, initialAvailability, promoteAvailability,
        canScore, hp] <;>
      rcases ha : a.hasProjectData <;>
      simp_all

/-- C5 witness: a GitLab-hosted package with project-level aggregator data is
promoted to `partial_forge` and scored. -/
theorem claim_C5_witness :
    ((pipelineOutcome (some { platform := Platform.gitlab }) none
        (some { hasProjectData := true })).1 =
          DataAvailability.PartialForge ∧
      (pipelineOutcome (some { platform := Platform.gitlab }) none
        (some { hasProjectData := true })).2 = true ↔
      ∃ a, (some { hasProjectData := true } : Option AggregatorData) = some a ∧
        a.hasProjectData = true) :=
  (claim_C5 (some { platform := Platform.gitlab }) none
      (some { hasProjectData := true })).2
    { platform := Platform.gitlab } rfl (by decide)

/-- C4 counterexample: an OSV record with explicit `database_specific`
severity LOW and an `affected[0].ecosystem_specific.severity` of HIGH parses
to HIGH - the ecosystem-specific severity overrides the explicit one, while
the claim requires the explicit severity to win. -/
theorem claim_C4_counterexample :
    (parseSeverity
      { dbSpecific := { severity := some "LOW" }
        affected := [{ ecosystemSeverity := some "HIGH" }] }).1 = "HIGH" ∧
    ({ dbSpecific := { severity := some "LOW" }
       affected := [{ ecosystemSeverity := some "HIGH" }] } :
        OSVVuln).dbSpecific.severity = some "LOW" ∧
    ("HIGH" : String) ≠ "LOW" := by
  refine ⟨by decide, rfl, by decide⟩

/-- C4 (amended): the parsed severity gives highest precedence to the
ecosystem-specific severity of the first `affected` entry carrying one; only
otherwise the uppercased explicit severity (unless it uppercases to UNKNOWN);
only otherwise the CVSS v3 band (>=9 CRITICAL, >=7 HIGH, >=4 MEDIUM, else
LOW); and UNKNOWN only when none of these is available. -/
theorem claim_C4_amended (v : OSVVuln) :
    (parseSeverity v).1 = severityPrecedenceSpec v := by
  unfold parseSeverity severityPrecedenceSpec
  rcases hfind : v.affected.findSome? (fun a => a.ecosystemSeverity) with _ | s <;>
    rcases hdb : v.dbSpecific.severity with _ | t <;>
    simp only [hfind, hdb] <;>
    split_ifs <;>
    simp_all

/-- C1 counterexample: an archived GitHub repository whose supply-chain risk
level is `high` is classified `restricted`, not `prohibited`: the code tests
the high supply-chain risk before the archived-repository prohibition, while
the claim requires `prohibited` whenever the repository is archived. -/
theorem claim_C1_counterexample :
    calcRiskTier 50 50
      (some { repo := { isArchived := true }, security := {} })
      (some { riskLevel := "high" }) = RiskTier.restricted ∧
    RiskTier.restricted ≠ RiskTier.prohibited := by
  exact ⟨by decide, by decide⟩

set_option maxHeartbeats 8000000 in
/-- C1 (amended): the risk tier follows the cascade in which the four
supply-chain prohibitions come first, then the high-supply-chain-risk
restriction, then the archived / unpatched-critical-CVE prohibitions, then
the low-security restriction, then the score-based tiers with the
medium-or-worse supply-chain downgrade of `approved`.  The hypothesis is the
caller's invariant: without GitHub data the security component score is the
baseline 50. -/
theorem claim_C1_amended (overall securityScore : ℚ)
    (githubData : Option GitHubData) (supplyChain : Option SupplyChainData)
    (hsec : githubData = none → securityScore = 50) :
    calcRiskTier overall securityScore githubData supplyChain =
      riskTierSpec overall securityScore githubData supplyChain := by
  rcases githubData with _ | g
  · have h50 : securityScore = 50 := hsec rfl
    subst h50
    rcases supplyChain with _ | sc <;>
      simp only [calcRiskTier, calcRiskTierGithub, calcRiskTierScore,
        riskTierSpec, scProhibits, scRiskHigh, ghProhibits, scMediumPlus] <;>
      norm_num <;>
      split_ifs <;> first | rfl | simp_all
  · rcases supplyChain with _ | sc <;>
      simp only [calcRiskTier, calcRiskTierGithub, calcRiskTierScore,
        riskTierSpec, scProhibits, scRiskHigh, ghProhibits, scMediumPlus] <;>
      split_ifs <;> first | rfl | simp_all

/-- C1 witness: a well-scored package with GitHub data and no supply-chain
analysis instantiates the amended cascade. -/
theorem claim_C1_witness :
    calcRiskTier 90 90 (some {}) none = riskTierSpec 90 90 (some {}) none :=
  claim_C1_amended 90 90 (some {}) none
    (fun h => Option.noConfusion h)

lemma getNextPackage_new (q : WorkQueue) (np : QueuedPackage)
    (nrest : List QueuedPackage) (hn : q.newQueue = np :: nrest)
    (hs : q.staleQueue ≠ []) (hpos : q.cyclePos < q.newQuota) :
    getNextPackage q =
      (some np, { q with newQueue := nrest, cyclePos := q.cyclePos + 1 }) := by
  obtain ⟨sp, srest, hsq⟩ : ∃ a l, q.staleQueue = a :: l := by
    cases hq : q.staleQueue
    · exact absurd hq hs
    · exact ⟨_, _, rfl⟩
  unfold getNextPackage
  rw [hn, hsq]
  simp [hpos]

lemma getNextPackage_stale (q : WorkQueue) (sp : QueuedPackage)
    (srest : List QueuedPackage) (hsq : q.staleQueue = sp :: srest)
    (hn : q.newQueue ≠ []) (hpos : q.newQuota ≤ q.cyclePos) :
    getNextPackage q =
      (some sp,
        { q with
            staleQueue := srest
            cyclePos := if q.newQuota + q.staleQuota ≤ q.cyclePos + 1 then 0
              else q.cyclePos + 1 }) := by
  obtain ⟨np, nrest, hnq⟩ : ∃ a l, q.newQueue = a :: l := by
    cases hq : q.newQueue
    · exact absurd hq hn
    · exact ⟨_, _, rfl⟩
  unfold getNextPackage
  rw [hnq, hsq]
  simp [Nat.not_lt.mpr hpos]

lemma runQueue_newPhase : ∀ (k : ℕ) (q : WorkQueue),
    q.cyclePos + k = q.newQuota → k ≤ q.newQueue.length → q.staleQueue ≠ [] →
    runQueue k q = (q.newQueue.take k,
      { q with
          newQueue := q.newQueue.drop k
          cyclePos := q.newQuota }) := by
  intro k
  induction k with
  | zero =>
    intro q hpos _ _
    cases q
    simp_all [runQueue]
  | succ k ih =>
    intro q hpos hlen hs
    obtain ⟨np, nrest, hn⟩ : ∃ a l, q.newQueue = a :: l := by
      cases hq : q.newQueue
      · rw [hq] at hlen; simp at hlen
      · exact ⟨_, _, rfl⟩
    have hstep := getNextPackage_new q np nrest hn hs (by omega)
    have hrec := ih { q with newQueue := nrest, cyclePos := q.cyclePos + 1 }
      (by simp; omega) (by rw [hn] at hlen; simpa using hlen) (by simpa using hs)
    simp only [runQueue, hstep, hrec, hn]
    simp [List.take_succ_cons, List.drop_succ_cons]

lemma runQueue_stalePhase : ∀ (k : ℕ) (q : WorkQueue),
    1 ≤ k → q.cyclePos + k = q.newQuota + q.staleQuota →
    q.newQuota ≤ q.cyclePos → k ≤ q.staleQueue.length → q.newQueue ≠ [] →
    runQueue k q = (q.staleQueue.take k,
      { q with
          staleQueue := q.staleQueue.drop k
          cyclePos := 0 }) := by
  intro k
  induction k with
  | zero => intro q h1; omega
  | succ k ih =>
    intro q h1 hpos hge hlen hn
    obtain ⟨sp, srest, hsq⟩ : ∃ a l, q.staleQueue = a :: l := by
      cases hq : q.staleQueue
      · rw [hq] at hlen; simp at hlen
      · exact ⟨_, _, rfl⟩
    have hstep := getNextPackage_stale q sp srest hsq hn hge
    rcases Nat.eq_zero_or_pos k with hk | hk
    · subst hk
      have hreset : (if q.newQuota + q.staleQuota ≤ q.cyclePos + 1 then 0
          else q.cyclePos + 1) = 0 := by
        rw [if_pos (by omega)]
      rw [hreset] at hstep
      simp only [runQueue, hstep, hsq]
      simp
    · have hnoreset : (if q.newQuota + q.staleQuota ≤ q.cyclePos + 1 then 0
          else q.cyclePos + 1) = q.cyclePos + 1 := by
        rw [if_neg (by omega)]
      rw [hnoreset] at hstep
      have hrec := ih { q with staleQueue := srest, cyclePos := q.cyclePos + 1 }
        hk (by simp; omega) (by simp; omega)
        (by rw [hsq] at hlen; simpa using hlen) (by simpa using hn)
      simp only [runQueue, hstep, hrec, hsq]
      simp [List.take_succ_cons, List.drop_succ_cons]

lemma runQueue_add (a b : ℕ) (q : WorkQueue) :
    runQueue (a + b) q =
      ((runQueue a q).1 ++ (runQueue b (runQueue a q).2).1,
        (runQueue b (runQueue a q).2).2) := by
  induction a generalizing q with
  | zero => simp [runQueue]
  | succ a ih =>
    have hadd : a + 1 + b = (a + b) + 1 := by omega
    rw [hadd]
    simp only [runQueue, ih]
    simp [List.append_assoc]

lemma map_source_take (l : List QueuedPackage) (n : ℕ) (src : PackageSource)
    (hlen : n ≤ l.length) (hall : ∀ p ∈ l, p.source = src) :
    (l.take n).map (fun p => p.source) = List.replicate n src := by
  rw [List.eq_replicate]
  constructor
  · simp [List.length_take]
    omega
  · intro b hb
    simp only [List.mem_map] at hb
    obtain ⟨p, hp, rfl⟩ := hb
    exact hall p (List.take_subset n l hp)

/-- C7: starting at cycle position 0 with at least `new_ratio + stale_ratio`
packages in each queue (and a positive stale share), a full cycle of
`new_ratio + stale_ratio` calls serves exactly the first `new_ratio` new
packages followed by the first `stale_ratio` stale packages and resets the
cycle position to 0; when one queue is empty, `get_next_package` falls
through to the other queue. -/
theorem claim_C7 (q : WorkQueue) (hpos : q.cyclePos = 0)
    (hstale : 1 ≤ q.staleQuota)
    (hnlen : q.newQuota + q.staleQuota ≤ q.newQueue.length)
    (hslen : q.newQuota + q.staleQuota ≤ q.staleQueue.length) :
    (runQueue (q.newQuota + q.staleQuota) q =
      (q.newQueue.take q.newQuota ++ q.staleQueue.take q.staleQuota,
        { q with
            newQueue := q.newQueue.drop q.newQuota
            staleQueue := q.staleQueue.drop q.staleQuota
            cyclePos := 0 }))
    ∧ ((∀ p ∈ q.newQueue, p.source = PackageSource.New) →
        (∀ p ∈ q.staleQueue, p.source = PackageSource.Stale) →
        (runQueue (q.newQuota + q.staleQuota) q).1.map (fun p => p.source) =
          List.replicate q.newQuota PackageSource.New ++
            List.replicate q.staleQuota PackageSource.Stale)
    ∧ (∀ (q' : WorkQueue) (p : QueuedPackage) (rest : List QueuedPackage),
        q'.staleQueue = [] → q'.newQueue = p :: rest →
        getNextPackage q' = (some p, { q' with newQueue := rest }))
    ∧ (∀ (q' : WorkQueue) (p : QueuedPackage) (rest : List QueuedPackage),
        q'.newQueue = [] → q'.staleQueue = p :: rest →
        getNextPackage q' = (some p, { q' with staleQueue := rest })) := by
  have hsne : q.staleQueue ≠ [] := by
    intro h
    rw [h] at hslen
    simp at hslen
    omega
  have h1 := runQueue_newPhase q.newQuota q (by omega) (by omega) hsne
  have h2 := runQueue_stalePhase q.staleQuota
    { q with newQueue := q.newQueue.drop q.newQuota, cyclePos := q.newQuota }
    hstale (by simp) (by simp)
    (by simp; omega)
    (by
      have hdlen : 0 < (q.newQueue.drop q.newQuota).length := by
        simp [List.length_drop]
        omega
      exact List.length_pos.mp hdlen)
  have hmain : runQueue (q.newQuota + q.staleQuota) q =
      (q.newQueue.take q.newQuota ++ q.staleQueue.take q.staleQuota,
        { q with
            newQueue := q.newQueue.drop q.newQuota
            staleQueue := q.staleQueue.drop q.staleQuota
            cyclePos := 0 }) := by
    rw [runQueue_add, h1]
    simp only []
    rw [h2]
  refine ⟨hmain, ?_, ?_, ?_⟩
  · intro hnew hstl
    rw [hmain]
    simp only [List.map_append]
    rw [map_source_take q.newQueue q.newQuota PackageSource.New (by omega) hnew,
      map_source_take q.staleQueue q.staleQuota PackageSource.Stale (by omega)
        hstl]
  · intro q' p rest hs hn
    unfold getNextPackage
    rw [hs, hn]
  · intro q' p rest hn hs
    unfold getNextPackage
    rw [hs, hn]


/-- C7 witness: on the sample queue (3:1 interleave, four packages of each
kind) one full cycle serves the first three new packages followed by the
first stale package and resets the cycle position to 0. -/
theorem claim_C7_witness :
    (sampleQueue.cyclePos = 0 ∧ 1 ≤ sampleQueue.staleQuota ∧
      sampleQueue.newQuota + sampleQueue.staleQuota ≤
        sampleQueue.newQueue.length ∧
      sampleQueue.newQuota + sampleQueue.staleQuota ≤
        sampleQueue.staleQueue.length) ∧
    runQueue (sampleQueue.newQuota + sampleQueue.staleQuota) sampleQueue =
      (sampleQueue.newQueue.take sampleQueue.newQuota ++
        sampleQueue.staleQueue.take sampleQueue.staleQuota,
        { sampleQueue with
            newQueue := sampleQueue.newQueue.drop sampleQueue.newQuota
            staleQueue := sampleQueue.staleQueue.drop sampleQueue.staleQuota
            cyclePos := 0 }) :=
  ⟨⟨rfl, by decide, by decide, by decide⟩,
    (claim_C7 sampleQueue rfl (by decide) (by decide) (by decide)).1⟩

lemma bfsVisit_maxDepth_mono (children : List ℕ) (d : ℕ)
    (st : List (ℕ × ℕ) × List ℕ × ℕ) :
    st.2.2 ≤ (bfsVisit children d st).2.2 := by
  induction children generalizing st with
  | nil => simp [bfsVisit]
  | cons c cs ih =>
    unfold bfsVisit
    simp only [List.foldl_cons]
    refine le_trans ?_ (ih _)
    split_ifs <;> simp

lemma bfsLoop_maxDepth_mono (children : ℕ → List ℕ) :
    ∀ (fuel : ℕ) (depths : List (ℕ × ℕ)) (queue : List ℕ) (maxd : ℕ),
      maxd ≤ (bfsLoop children fuel depths queue maxd).2 := by
  intro fuel
  induction fuel with
  | zero => intro depths queue maxd; simp [bfsLoop]
  | succ fuel ih =>
    intro depths queue maxd
    cases queue with
    | nil => simp [bfsLoop]
    | cons current rest =>
      unfold bfsLoop
      exact le_trans
        (bfsVisit_maxDepth_mono (children current)
          ((List.lookup current depths).getD 0) (depths, [], maxd))
        (ih _ _ _)

lemma bfsVisit_noNew (children : List ℕ) (d : ℕ)
    (st : List (ℕ × ℕ) × List ℕ × ℕ)
    (h : ∀ c ∈ children, (st.1.lookup c).isSome) :
    bfsVisit children d st = st := by
  induction children with
  | nil => simp [bfsVisit]
  | cons c cs ih =>
    unfold bfsVisit
    simp only [List.foldl_cons]
    rw [if_pos (h c (by simp))]
    exact ih (fun c' hc' => h c' (by simp [hc']))

lemma bfsVisit_hits (children : List ℕ) (d : ℕ) :
    ∀ (st : List (ℕ × ℕ) × List ℕ × ℕ),
      (∃ c ∈ children, (st.1.lookup c).isNone) →
      d + 1 ≤ (bfsVisit children d st).2.2 := by
  induction children with
  | nil => intro st h; simp at h
  | cons c cs ih =>
    intro st h
    unfold bfsVisit
    simp only [List.foldl_cons]
    by_cases hc : (st.1.lookup c).isSome
    · rw [if_pos hc]
      apply ih
      obtain ⟨c', hc', hnone⟩ := h
      rw [List.mem_cons] at hc'
      rcases hc' with rfl | hc'
      · rw [Option.isNone_iff_eq_none] at hnone
        rw [hnone] at hc
        simp at hc
      · exact ⟨c', hc', hnone⟩
    · rw [if_neg hc]
      refine le_trans ?_ (bfsVisit_maxDepth_mono cs d _)
      simp

lemma bfsLoop_root_zero (children : ℕ → List ℕ) (fuel : ℕ)
    (h : ∀ c ∈ children 0, c = 0) :
    (bfsLoop children (fuel + 1) [(0, 0)] [0] 0).2 = 0 := by
  have hv : bfsVisit (children 0) ((List.lookup 0 ([(0, 0)] : List (ℕ × ℕ))).getD 0)
      (([(0, 0)] : List (ℕ × ℕ)), ([] : List ℕ), 0) = ([(0, 0)], [], 0) := by
    apply bfsVisit_noNew
    intro c hc
    rw [h c hc]
    simp [List.lookup]
  unfold bfsLoop
  simp only [hv]
  cases fuel <;> simp [bfsLoop]

lemma bfsLoop_root_pos (children : ℕ → List ℕ) (fuel : ℕ) (c : ℕ)
    (hc : c ∈ children 0) (hne : c ≠ 0) :
    1 ≤ (bfsLoop children (fuel + 1) [(0, 0)] [0] 0).2 := by
  unfold bfsLoop
  refine le_trans ?_ (bfsLoop_maxDepth_mono children fuel _ _ _)
  have hbeq : (c == 0) = false := by simpa using hne
  have hlook : (List.lookup c ([(0, 0)] : List (ℕ × ℕ))).isNone := by
    simp [List.lookup, hbeq]
  have := bfsVisit_hits (children 0)
    ((List.lookup 0 ([(0, 0)] : List (ℕ × ℕ))).getD 0) ([(0, 0)], [], 0)
    ⟨c, hc, hlook⟩
  simpa using this

lemma countDeps_total : ∀ (l : List DepsNode) (i : ℕ) (depthOf : ℕ → ℕ),
    1 ≤ i → (countDeps depthOf i l).1 + (countDeps depthOf i l).2.1 = l.length := by
  intro l
  induction l with
  | nil => intro i d h; simp [countDeps]
  | cons n rest ih =>
    intro i d h
    unfold countDeps
    rw [if_neg (by simp; omega : ¬((i == 0) = true))]
    have hrec := ih (i + 1) d (by omega)
    simp only [List.length_cons]
    split_ifs <;> simp only [] <;> omega

lemma countDeps_zero_cons (n : DepsNode) (rest : List DepsNode)
    (depthOf : ℕ → ℕ) :
    countDeps depthOf 0 (n :: rest) = countDeps depthOf 1 rest := by
  simp [countDeps]

/-- C9: for every well-formed dependency graph (edges point at existing
nodes; when dependencies exist, some edge leaves the root), the parsed
summary counts every non-root node exactly once as direct or transitive, and
`max_depth = 0` exactly when the package has no dependencies. -/
theorem claim_C9 (nodes : List DepsNode) (edges : List DepsEdge)
    (hvalid : ∀ e ∈ edges, e.toNode < nodes.length)
    (hconn : 2 ≤ nodes.length → ∃ e ∈ edges, e.fromNode = 0 ∧ e.toNode ≠ 0) :
    ∀ s, parseDependencyGraph nodes edges = some s →
      s.directCount + s.transitiveCount + 1 = nodes.length ∧
      (s.maxDepth = 0 ↔ s.directCount + s.transitiveCount = 0) := by
  intro s hs
  cases hnodes : nodes with
  | nil =>
    rw [hnodes] at hs
    simp [parseDependencyGraph] at hs
  | cons n0 rest =>
    rw [hnodes] at hs hvalid hconn
    simp only [parseDependencyGraph, List.isEmpty_cons, Bool.false_eq_true,
      if_false, Option.some_inj] at hs
    subst hs
    dsimp only
    have hcount :
        (countDeps
          (fun i => ((bfsLoop (childrenOf edges) (edges.length + 1)
            [(0, 0)] [0] 0).1.lookup i).getD 0) 0 (n0 :: rest)).1 +
        (countDeps
          (fun i => ((bfsLoop (childrenOf edges) (edges.length + 1)
            [(0, 0)] [0] 0).1.lookup i).getD 0) 0 (n0 :: rest)).2.1 =
          rest.length := by
      rw [countDeps_zero_cons]
      exact countDeps_total rest 1 _ (by omega)
    refine ⟨by simpa using hcount, ?_⟩
    by_cases hrest : rest = []
    · subst hrest
      have hzero : (bfsLoop (childrenOf edges) (edges.length + 1)
          [(0, 0)] [0] 0).2 = 0 := by
        apply bfsLoop_root_zero
        intro c hc
        unfold childrenOf at hc
        simp only [List.mem_map, List.mem_filter] at hc
        obtain ⟨e, ⟨he, _⟩, rfl⟩ := hc
        have := hvalid e he
        simp at this
        omega
      simp only [List.length_nil] at hcount
      omega
    · have hrlen : 1 ≤ rest.length := List.length_pos.mpr hrest
      have hlen2 : 2 ≤ (n0 :: rest).length := by
        simp only [List.length_cons]
        omega
      obtain ⟨e, he, hfrom, hto⟩ := hconn hlen2
      have hcmem : e.toNode ∈ childrenOf edges 0 := by
        unfold childrenOf
        simp only [List.mem_map, List.mem_filter]
        exact ⟨e, ⟨he, by simp [hfrom]⟩, rfl⟩
      have hpos := bfsLoop_root_pos (childrenOf edges) edges.length
        e.toNode hcmem hto
      omega

theorem claim_C9_witness :
    parseDependencyGraph [{}, {}] [{ toNode := 1 }] =
      some { directCount := 1, transitiveCount := 0, vulnerableDirect := 0,
             vulnerableTransitive := 0, maxDepth := 1 } ∧
    (1 + 0 + 1 = 2 ∧ ((1 : ℕ) = 0 ↔ 1 + 0 = 0)) := by
  constructor
  · decide
  · exact claim_C9 [{}, {}] [{ toNode := 1 }] (by decide)
      (fun _ => ⟨{ toNode := 1 }, by simp, rfl, by decide⟩)
      { directCount := 1, transitiveCount := 0, vulnerableDirect := 0,
        vulnerableTransitive := 0, maxDepth := 1 } (by decide)

lemma entropy_foldl (l : List ℝ) (acc : ℝ) (hl : ∀ p ∈ l, 0 < p) :
    l.foldl (fun acc p => if 0 < p then acc - p * Real.logb 2 p else acc) acc
      = acc - (l.map (fun p => p * Real.logb 2 p)).sum := by
  induction l generalizing acc with
  | nil => simp
  | cons p ps ih =>
    simp only [List.foldl_cons, List.map_cons, List.sum_cons]
    rw [if_pos (hl p (by simp))]
    rw [ih _ (fun q hq => hl q (by simp [hq]))]
    ring

lemma sum_filter_pos (l : List ℕ) :
    (l.filter (fun c => 0 < c)).sum = l.sum := by
  induction l with
  | nil => rfl
  | cons c cs ih =>
    by_cases hc : 0 < c
    · simp [List.filter_cons, hc, ih]
    · have hc0 : c = 0 := by omega
      simp [List.filter_cons, hc, ih, hc0]

lemma filter_pos_ne_nil (cs : List ℕ) (hsum : cs.sum ≠ 0) :
    cs.filter (fun c => 0 < c) ≠ [] := by
  intro h
  apply hsum
  rw [← sum_filter_pos, h]
  rfl

lemma sum_neg_of_all_neg (l : List ℝ) (hne : l ≠ [])
    (h : ∀ x ∈ l, x < 0) : l.sum < 0 := by
  induction l with
  | nil => exact absurd rfl hne
  | cons x xs ih =>
    rw [List.sum_cons]
    rcases List.eq_nil_or_concat xs with hxs | _
    · subst hxs
      simpa using h x (by simp)
    · have hxs : xs ≠ [] := by
        rintro rfl
        simp_all
      have h1 := h x (by simp)
      have h2 := ih hxs (fun y hy => h y (by simp [hy]))
      linarith

lemma mem_lt_sum_of_two (l : List ℕ) (hall : ∀ x ∈ l, 0 < x)
    (hlen : 2 ≤ l.length) : ∀ c ∈ l, c < l.sum := by
  intro c hc
  obtain ⟨s, t, rfl⟩ := List.append_of_mem hc
  rw [List.sum_append, List.sum_cons]
  have hst : s.sum + t.sum ≥ 1 := by
    rcases s with _ | ⟨a, s'⟩
    · rcases t with _ | ⟨b, t'⟩
      · simp at hlen
      · have := hall b (by simp)
        simp only [List.sum_cons]
        omega
    · have := hall a (by simp)
      simp only [List.sum_cons]
      omega
  omega

lemma contributorEntropy_eq_some (cs : List ℕ) (hne : cs ≠ [])
    (hsum : cs.sum ≠ 0) :
    contributorEntropyOfRepo cs =
      some (-(((cs.filter (fun c => 0 < c)).map
        (fun (c : ℕ) => ((c : ℝ) / (cs.sum : ℝ)) *
          Real.logb 2 ((c : ℝ) / (cs.sum : ℝ)))).sum)) := by
  unfold contributorEntropyOfRepo contributorEntropy
  rw [if_neg (by simp [hne, hsum])]
  rw [if_neg (by
    simp only [List.isEmpty_eq_true, List.map_eq_nil_iff]
    exact filter_pos_ne_nil cs hsum)]
  congr 1
  rw [entropy_foldl]
  · rw [zero_sub, List.map_map]
    rfl
  · intro p hp
    simp only [List.mem_map, List.mem_filter] at hp
    obtain ⟨c, ⟨_, hcpos⟩, rfl⟩ := hp
    apply div_pos
    · exact_mod_cast (by simpa using hcpos : 0 < c)
    · exact_mod_cast Nat.pos_of_ne_zero hsum

lemma contributorEntropy_replicate (n c : ℕ) (hn : 0 < n) (hc : 0 < c) :
    contributorEntropyOfRepo (List.replicate n c) =
      some (Real.logb 2 (n : ℝ)) := by
  have hsum : (List.replicate n c).sum = n * c := by
    rw [List.sum_replicate, smul_eq_mul]
  have hsum0 : (List.replicate n c).sum ≠ 0 := by
    rw [hsum]
    positivity
  rw [contributorEntropy_eq_some _ (by
      intro h
      have := congrArg List.length h
      simp at this
      omega)
    hsum0]
  congr 1
  have hfilter : (List.replicate n c).filter (fun c => 0 < c) =
      List.replicate n c := by
    rw [List.filter_eq_self]
    intro a ha
    rw [List.eq_of_mem_replicate ha]
    simpa using hc
  rw [hfilter, List.map_replicate, List.sum_replicate, hsum]
  have hp : ((c : ℝ) / ((n * c : ℕ) : ℝ)) = ((n : ℝ))⁻¹ := by
    have hc0 : (c : ℝ) ≠ 0 := by positivity
    have hn0 : (n : ℝ) ≠ 0 := by positivity
    push_cast
    field_simp
    ring
  rw [hp, Real.logb_inv, nsmul_eq_mul]
  have hn0 : (n : ℝ) ≠ 0 := by positivity
  field_simp

lemma sum_nonpos_of_all_nonpos (l : List ℝ) (h : ∀ x ∈ l, x ≤ 0) :
    l.sum ≤ 0 := by
  induction l with
  | nil => simp
  | cons x xs ih =>
    rw [List.sum_cons]
    have h1 := h x (by simp)
    have h2 := ih (fun y hy => h y (by simp [hy]))
    linarith

lemma contributorEntropy_of_sum_zero (cs : List ℕ) (h : cs.sum = 0) :
    contributorEntropyOfRepo cs = none := by
  unfold contributorEntropyOfRepo contributorEntropy
  rw [if_pos (by simp [h])]

/-- C8: the contributor Shannon entropy is defined exactly on inputs with a
positive contribution total; it is non-negative; it vanishes exactly for a
single positive contributor; and one more equally contributing contributor
strictly increases it. -/
theorem claim_C8 :
    (∀ cs : List ℕ, cs ≠ [] → cs.sum ≠ 0 →
      ∃ H : ℝ, contributorEntropyOfRepo cs = some H ∧ 0 ≤ H)
    ∧ (∀ (cs : List ℕ) (H : ℝ), contributorEntropyOfRepo cs = some H →
        (H = 0 ↔ (cs.filter (fun c => 0 < c)).length = 1))
    ∧ (∀ n c : ℕ, 0 < n → 0 < c →
        ∃ H H' : ℝ, contributorEntropyOfRepo (List.replicate n c) = some H ∧
          contributorEntropyOfRepo (List.replicate (n + 1) c) = some H' ∧
          H < H')
    ∧ (∀ cs : List ℕ, cs.sum = 0 → contributorEntropyOfRepo cs = none) := by
  refine ⟨?_, ?_, ?_, contributorEntropy_of_sum_zero⟩
  · -- non-negativity
    intro cs hne hsum
    refine ⟨_, contributorEntropy_eq_some cs hne hsum, ?_⟩
    have hT : (0 : ℝ) < (cs.sum : ℝ) := by
      exact_mod_cast Nat.pos_of_ne_zero hsum
    have hterms : ∀ x ∈ (cs.filter (fun c => 0 < c)).map
        (fun (c : ℕ) => ((c : ℝ) / (cs.sum : ℝ)) *
          Real.logb 2 ((c : ℝ) / (cs.sum : ℝ))), x ≤ 0 := by
      intro x hx
      simp only [List.mem_map, List.mem_filter] at hx
      obtain ⟨c, ⟨hmem, hcpos⟩, rfl⟩ := hx
      have hc : (0 : ℝ) < (c : ℝ) := by
        exact_mod_cast (by simpa using hcpos : 0 < c)
      have hle : (c : ℝ) ≤ (cs.sum : ℝ) := by
        exact_mod_cast List.le_sum_of_mem hmem
      have hp0 : (0 : ℝ) ≤ (c : ℝ) / (cs.sum : ℝ) := by positivity
      have hp1 : (c : ℝ) / (cs.sum : ℝ) ≤ 1 := by
        rw [div_le_one hT]
        exact hle
      have hlog : Real.logb 2 ((c : ℝ) / (cs.sum : ℝ)) ≤ 0 :=
        Real.logb_nonpos (by norm_num) hp0 hp1
      exact mul_nonpos_iff.mpr (Or.inl ⟨hp0, hlog⟩)
    have := sum_nonpos_of_all_nonpos _ hterms
    linarith
  · -- vanishing characterisation
    intro cs H hsome
    have hne : cs ≠ [] := by
      rintro rfl
      rw [contributorEntropy_of_sum_zero [] rfl] at hsome
      exact Option.noConfusion hsome
    have hsum : cs.sum ≠ 0 := by
      intro h0
      rw [contributorEntropy_of_sum_zero cs h0] at hsome
      exact Option.noConfusion hsome
    have hT : (0 : ℝ) < (cs.sum : ℝ) := by
      exact_mod_cast Nat.pos_of_ne_zero hsum
    rw [contributorEntropy_eq_some cs hne hsum, Option.some_inj] at hsome
    subst hsome
    constructor
    · intro h0
      by_contra hlen
      have hF : cs.filter (fun c => 0 < c) ≠ [] := filter_pos_ne_nil cs hsum
      have hlen1 : 1 ≤ (cs.filter (fun c => 0 < c)).length :=
        List.length_pos.mpr hF
      have hlen2 : 2 ≤ (cs.filter (fun c => 0 < c)).length := by omega
      have hterm : ∀ x ∈ (cs.filter (fun c => 0 < c)).map
          (fun (c : ℕ) => ((c : ℝ) / (cs.sum : ℝ)) *
            Real.logb 2 ((c : ℝ) / (cs.sum : ℝ))), x < 0 := by
        intro x hx
        simp only [List.mem_map, List.mem_filter] at hx
        obtain ⟨c, ⟨hmem, hcpos⟩, rfl⟩ := hx
        have hcn : 0 < c := by simpa using hcpos
        have hclt : c < cs.sum := by
          have hall : ∀ x ∈ cs.filter (fun c => 0 < c), 0 < x := by
            intro y hy
            have := (List.mem_filter.mp hy).2
            simpa using this
          have := mem_lt_sum_of_two _ hall hlen2 c
            (List.mem_filter.mpr ⟨hmem, by simpa using hcpos⟩)
          rwa [sum_filter_pos] at this
        have hp0 : (0 : ℝ) < (c : ℝ) / (cs.sum : ℝ) := by
          apply div_pos _ hT
          exact_mod_cast hcn
        have hp1 : (c : ℝ) / (cs.sum : ℝ) < 1 := by
          rw [div_lt_one hT]
          exact_mod_cast hclt
        have hlog : Real.logb 2 ((c : ℝ) / (cs.sum : ℝ)) < 0 :=
          Real.logb_neg (by norm_num) hp0 hp1
        exact mul_neg_of_pos_of_neg hp0 hlog
      have hneg := sum_neg_of_all_neg _ (by simpa using hF) hterm
      linarith
    · intro h1
      obtain ⟨c, hc⟩ := List.length_eq_one.mp h1
      have hcT : c = cs.sum := by
        have hfs := sum_filter_pos cs
        rw [hc] at hfs
        simpa using hfs
      rw [hc]
      simp only [List.map_cons, List.map_nil, List.sum_cons, List.sum_nil]
      rw [hcT, div_self (ne_of_gt hT), Real.logb_one]
      ring
  · -- strict growth on uniform distributions
    intro n c hn hc
    refine ⟨_, _, contributorEntropy_replicate n c hn hc,
      contributorEntropy_replicate (n + 1) c (by omega) hc, ?_⟩
    apply Real.logb_lt_logb (by norm_num)
    · exact_mod_cast hn
    · push_cast
      linarith

theorem claim_C8_witness :
    (([1, 1] : List ℕ) ≠ [] ∧ ([1, 1] : List ℕ).sum ≠ 0) ∧
    (∃ H : ℝ, contributorEntropyOfRepo [1, 1] = some H ∧ 0 ≤ H) :=
  ⟨⟨by decide, by decide⟩, claim_C8.1 [1, 1] (by decide) (by decide)⟩
